import Mathlib

/-!
Verification development for the m87-assistant host orchestrator.

The definitions below are a shallow embedding of the host-side code:
the IPC mailbox drainer (`startIpcWatcher` in index.ts), the control-request
handler (`processTaskIpc`), the Telegram access-control operations
(`requestApproval`, `approveUser`, `denyUser` in telegram.ts) and the
Telegram message chunking (`sendTelegramMessage`, `sendTelegramResponse`).

JavaScript-specific behaviour is modelled explicitly: string truthiness
(empty string is falsy), `parseInt(s, 10)` prefix parsing,
`String.prototype.replace` replacing only the first occurrence, and record
objects as association lists with assignment/delete semantics.  External
library calls (cron parsing, `Date` parsing/formatting, `Date.now`) and the
possibility of the handler throwing (database / filesystem errors) are
parameters of an `Env` record, so every theorem quantifies over them.
-/

namespace M87

/-- JS truthiness of an optional string field: present and non-empty. -/
def truthyS (s : Option String) : Bool :=
  match s with
  | some v => v != ""
  | none => false

/-- JS truthiness of an optional numeric field: present and non-zero. -/
def truthyI (v : Option Int) : Bool :=
  match v with
  | some n => n != 0
  | none => false

/-- Longest leading run of decimal digits. -/
def takeDigits (l : List Char) : List Char :=
  l.takeWhile (fun c => c.isDigit)

/-- Decimal value of a digit list, accumulator style. -/
def digitsToNat : List Char → Nat → Nat
  | [], acc => acc
  | c :: cs, acc => digitsToNat cs (acc * 10 + (c.toNat - 48))

/-- Model of JavaScript `parseInt(s, 10)`: skip leading whitespace, an
optional sign, then the longest digit run; `none` models `NaN`. -/
def jsParseInt10 (s : String) : Option Int :=
  let l := s.toList.dropWhile (fun c => c.isWhitespace)
  match l with
  | '-' :: rest =>
    let ds := takeDigits rest
    if ds.isEmpty then none else some (-(Int.ofNat (digitsToNat ds 0)))
  | '+' :: rest =>
    let ds := takeDigits rest
    if ds.isEmpty then none else some (Int.ofNat (digitsToNat ds 0))
  | _ =>
    let ds := takeDigits l
    if ds.isEmpty then none else some (Int.ofNat (digitsToNat ds 0))

/-- Does the second list begin with the first one? -/
def listBeginsWith : List Char → List Char → Bool
  | [], _ => true
  | _ :: _, [] => false
  | p :: ps, c :: cs => p == c && listBeginsWith ps cs

/-- Model of JavaScript `s.replace(pat, rep)` with a string pattern:
only the first (leftmost) occurrence is replaced. -/
def replaceFirstList (pat rep : List Char) : List Char → List Char
  | [] => if pat.isEmpty then rep else []
  | c :: cs =>
    if listBeginsWith pat (c :: cs) then rep ++ (c :: cs).drop pat.length
    else c :: replaceFirstList pat rep cs

/-- String wrapper for `replaceFirstList`. -/
def jsReplaceFirst (pat rep s : String) : String :=
  String.mk (replaceFirstList pat.toList rep.toList s.toList)

/-- Model of `String.prototype.endsWith` over the character list. -/
def strEndsWith (s suffix : String) : Bool :=
  listBeginsWith suffix.toList.reverse s.toList.reverse

/-- Model of `String.prototype.startsWith` over the character list. -/
def strStartsWith (s pre : String) : Bool :=
  listBeginsWith pre.toList s.toList

/-! ## Association-list model of JS record objects -/

/-- `obj[k]` membership test (`!!obj[k]`). -/
def hasKey {κ α : Type} [BEq κ] (k : κ) (l : List (κ × α)) : Bool :=
  l.any (fun p => p.1 == k)

/-- `obj[k]` lookup. -/
def getAssoc {κ α : Type} [BEq κ] (k : κ) (l : List (κ × α)) : Option α :=
  (l.find? (fun p => p.1 == k)).map (fun p => p.2)

/-- `obj[k] = v` assignment: overwrite in place if the key exists,
otherwise append. -/
def setAssoc {κ α : Type} [BEq κ] (k : κ) (v : α) (l : List (κ × α)) : List (κ × α) :=
  if hasKey k l then l.map (fun p => if p.1 == k then (k, v) else p)
  else l ++ [(k, v)]

/-- `delete obj[k]`. -/
def delAssoc {κ α : Type} [BEq κ] (k : κ) (l : List (κ × α)) : List (κ × α) :=
  l.filter (fun p => p.1 != k)

/-! ## Data model (types.ts / db.ts schema) -/

/-- A scheduled task row (Task Store row in the spec). -/
structure Task where
  id : String
  group_folder : String
  chat_jid : String
  prompt : String
  schedule_type : String
  schedule_value : String
  context_mode : String
  next_run : Option String
  status : String
  created_at : String
deriving Repr, DecidableEq

/-- A registered group (tenant) record, from types.ts.  The container
configuration is opaque payload at this level. -/
structure RegisteredGroup where
  name : String
  folder : String
  trigger : String
  added_at : String
  containerConfig : Option String := none
deriving Repr, DecidableEq

/-- A paired (approved) Telegram user, from telegram.ts. -/
structure PairedUser where
  userId : Int
  username : Option String
  firstName : Option String
  pairedAt : String
  approvedBy : Option String
deriving Repr, DecidableEq

/-- A pending Telegram access request, from telegram.ts. -/
structure PendingApproval where
  userId : Int
  username : Option String
  firstName : Option String
  requestedAt : String
  firstMessage : String
deriving Repr, DecidableEq

/-- The access-control store: the two JSON files
`telegram_paired_users.json` and `telegram_pending_approvals.json`,
each a record keyed by userId. -/
structure ACState where
  paired : List (Int × PairedUser)
  pending : List (Int × PendingApproval)
deriving Repr, DecidableEq

/-- All durable state the IPC handler can touch: the task store, the
tenant registry (`registered_groups.json`) and the access-control store. -/
structure AppState where
  tasks : List Task
  registeredGroups : List (String × RegisteredGroup)
  ac : ACState
deriving Repr, DecidableEq

/-- A parsed IPC mailbox entry body.  Every field the handlers read is
optional, mirroring the TypeScript parameter type of `processTaskIpc`
(and the message-entry fields `type`/`chatJid`/`text`). -/
structure IpcData where
  type : Option String := none
  taskId : Option String := none
  prompt : Option String := none
  schedule_type : Option String := none
  schedule_value : Option String := none
  context_mode : Option String := none
  groupFolder : Option String := none
  chatJid : Option String := none
  jid : Option String := none
  name : Option String := none
  folder : Option String := none
  trigger : Option String := none
  containerConfig : Option String := none
  userId : Option Int := none
  text : Option String := none
deriving Repr, DecidableEq

/-- Environment of effects the code consults: the cron library, `Date`
parsing and formatting, the clock, the random task-id generator, and
whether a handler invocation throws (database / filesystem failure,
modelled as occurring before any durable mutation). -/
structure Env where
  /-- `CronExpressionParser.parse(v, tz).next().toISOString()`;
  `none` models a parse exception. -/
  cronNext : String → Option String
  /-- `new Date(v).getTime()`; `none` models `NaN`. -/
  dateParseMs : String → Option Int
  /-- `new Date(ms).toISOString()`. -/
  isoOfMs : Int → String
  /-- `Date.now()`. -/
  nowMs : Int
  /-- `new Date().toISOString()`. -/
  nowIso : String
  /-- The generated task id. -/
  newTaskId : String
  /-- Whether `processTaskIpc` throws on this entry (e.g. a database
  error), before mutating durable state. -/
  taskThrows : IpcData → String → Bool

/-! ## Task store operations.

The database module (db.ts) is not part of the provided sources; only
its imported signature is.  Modelled from the spec: "Task Store: durable table
of scheduled jobs keyed by id" with the obvious keyed insert, status
update, delete and lookup. -/

/-- Modelled from the spec: db.ts `getTaskById` — lookup in the keyed
task table. -/
def getTaskById (id : String) (tasks : List Task) : Option Task :=
  tasks.find? (fun t => t.id == id)

/-- Modelled from the spec: db.ts `createTask` — insert a new row. -/
def createTask (t : Task) (tasks : List Task) : List Task :=
  tasks ++ [t]

/-- Modelled from the spec: db.ts `updateTask(id, { status })` — update
the status of the row with the given id. -/
def updateTaskStatus (id status : String) (tasks : List Task) : List Task :=
  tasks.map (fun t => if t.id == id then { t with status := status } else t)

/-- Modelled from the spec: db.ts `deleteTask` — delete the row. -/
def deleteTask (id : String) (tasks : List Task) : List Task :=
  tasks.filter (fun t => t.id != id)

/-! ## Access-control operations (telegram.ts) -/

/-- telegram.ts `isUserPaired`. -/
def isUserPaired (userId : Int) (st : ACState) : Bool :=
  hasKey userId st.paired

/-- telegram.ts `hasPendingApproval`. -/
def hasPendingApproval (userId : Int) (st : ACState) : Bool :=
  hasKey userId st.pending

/-- telegram.ts `requestApproval`: no-op if already pending, otherwise
record a pending approval. -/
def requestApproval (env : Env) (userId : Int)
    (username firstName : Option String) (firstMessage : Option String)
    (st : ACState) : ACState :=
  if hasKey userId st.pending then st
  else
    { st with
      pending := setAssoc userId
        { userId := userId
          username := username
          firstName := firstName
          requestedAt := env.nowIso
          firstMessage := firstMessage.getD "" } st.pending }

/-- telegram.ts `approveUser`: create the paired record (also for users
not in pending — "direct approval"), then remove the pending record if
present. -/
def approveUser (env : Env) (userId : Int) (approvedBy : Option String)
    (st : ACState) : ACState :=
  let pendingUser := getAssoc userId st.pending
  let paired := setAssoc userId
    { userId := userId
      username := pendingUser.bind (fun p => p.username)
      firstName := pendingUser.bind (fun p => p.firstName)
      pairedAt := env.nowIso
      approvedBy := approvedBy } st.paired
  let pending :=
    if hasKey userId st.pending then delAssoc userId st.pending else st.pending
  { paired := paired, pending := pending }

/-- telegram.ts `denyUser`: remove the pending record if present; the
paired store is never touched. -/
def denyUser (userId : Int) (st : ACState) : ACState :=
  if hasKey userId st.pending then
    { st with pending := delAssoc userId st.pending }
  else st

/-! ## The IPC control-request handler (index.ts `processTaskIpc`) -/

/-- index.ts: `Object.entries(registeredGroups).find(([, g]) =>
g.folder === targetGroup)?.[0]`. -/
def lookupJid (targetGroup : String) (groups : List (String × RegisteredGroup)) :
    Option String :=
  (groups.find? (fun p => p.2.folder == targetGroup)).map (fun p => p.1)

/-- index.ts `registerGroup`: store the group record under its jid
(the folder creation is a filesystem side effect outside this state). -/
def registerGroup (jid : String) (g : RegisteredGroup)
    (groups : List (String × RegisteredGroup)) : List (String × RegisteredGroup) :=
  setAssoc jid g groups

/-- index.ts `processTaskIpc`: dispatch one parsed control request.
`sourceGroup` is the directory the file was found in and `isMain` the
elevation flag the watcher computed from it. -/
def processTaskIpc (env : Env) (data : IpcData) (sourceGroup : String)
    (isMain : Bool) (st : AppState) : AppState :=
  match data.type with
  | some "schedule_task" =>
    if truthyS data.prompt && truthyS data.schedule_type &&
        truthyS data.schedule_value && truthyS data.groupFolder then
      let targetGroup := data.groupFolder.getD ""
      if !isMain && targetGroup != sourceGroup then st
      else
        let targetJid :=
          if truthyS data.chatJid then data.chatJid
          else lookupJid targetGroup st.registeredGroups
        if !truthyS targetJid then st
        else
          let sv := data.schedule_value.getD ""
          let nextRunResult : Option (Option String) :=
            if data.schedule_type == some "cron" then
              match env.cronNext sv with
              | some iso => some (some iso)
              | none => none
            else if data.schedule_type == some "interval" then
              match jsParseInt10 sv with
              | some ms => if ms ≤ 0 then none else some (some (env.isoOfMs (env.nowMs + ms)))
              | none => none
            else if data.schedule_type == some "once" then
              match env.dateParseMs sv with
              | some t => some (some (env.isoOfMs t))
              | none => none
            else some none
          match nextRunResult with
          | none => st
          | some nextRun =>
            let contextMode :=
              if data.context_mode == some "group" || data.context_mode == some "isolated"
              then data.context_mode.getD "isolated" else "isolated"
            { st with
              tasks := createTask
                { id := env.newTaskId
                  group_folder := targetGroup
                  chat_jid := targetJid.getD ""
                  prompt := data.prompt.getD ""
                  schedule_type := data.schedule_type.getD ""
                  schedule_value := sv
                  context_mode := contextMode
                  next_run := nextRun
                  status := "active"
                  created_at := env.nowIso } st.tasks }
    else st
  | some "pause_task" =>
    if truthyS data.taskId then
      match getTaskById (data.taskId.getD "") st.tasks with
      | some task =>
        if isMain || task.group_folder == sourceGroup then
          { st with tasks := updateTaskStatus (data.taskId.getD "") "paused" st.tasks }
        else st
      | none => st
    else st
  | some "resume_task" =>
    if truthyS data.taskId then
      match getTaskById (data.taskId.getD "") st.tasks with
      | some task =>
        if isMain || task.group_folder == sourceGroup then
          { st with tasks := updateTaskStatus (data.taskId.getD "") "active" st.tasks }
        else st
      | none => st
    else st
  | some "cancel_task" =>
    if truthyS data.taskId then
      match getTaskById (data.taskId.getD "") st.tasks with
      | some task =>
        if isMain || task.group_folder == sourceGroup then
          { st with tasks := deleteTask (data.taskId.getD "") st.tasks }
        else st
      | none => st
    else st
  | some "register_group" =>
    if !isMain then st
    else if truthyS data.jid && truthyS data.name && truthyS data.folder &&
        truthyS data.trigger then
      { st with
        registeredGroups := registerGroup (data.jid.getD "")
          { name := data.name.getD ""
            folder := data.folder.getD ""
            trigger := data.trigger.getD ""
            added_at := env.nowIso
            containerConfig := data.containerConfig } st.registeredGroups }
    else st
  | some "telegram_approve" =>
    if !isMain then st
    else if truthyI data.userId then
      { st with ac := approveUser env (data.userId.getD 0) (some "main") st.ac }
    else st
  | some "telegram_deny" =>
    if !isMain then st
    else if truthyI data.userId then
      { st with ac := denyUser (data.userId.getD 0) st.ac }
    else st
  | some "telegram_list_pending" =>
    -- read-only: listPendingApprovals only logs
    st
  | _ => st

/-! ## The mailbox drainer (index.ts `startIpcWatcher`) -/

/-- The final fate of a mailbox file on one poll tick: `unlinkSync` on the
processed path, `renameSync` into the `errors` quarantine directory on a
parse/apply exception, or untouched (files not ending in `.json` are
filtered out before processing). -/
inductive Disposition
  | deleted
  | quarantined
  | leftInPlace
deriving Repr, DecidableEq

/-- A pending mailbox file: its name and its body.  `malformed` models a
body on which `JSON.parse` throws; `parsed` carries the parsed fields. -/
inductive FileBody
  | malformed
  | parsed (d : IpcData)
deriving Repr, DecidableEq

/-- A file in a mailbox directory. -/
structure MailboxFile where
  name : String
  body : FileBody
deriving Repr, DecidableEq

/-- One tenant's IPC directory: its `messages` and `tasks` subdirectories. -/
structure TenantDir where
  folder : String
  messageFiles : List MailboxFile
  taskFiles : List MailboxFile
deriving Repr, DecidableEq

/-- Disposition of one file of a tenant's `tasks` directory:
non-`.json` files are filtered out; a body that fails `JSON.parse` or a
handler invocation that throws lands in quarantine; otherwise the file is
deleted after the handler returns. -/
def taskFileDisposition (env : Env) (sourceGroup : String) (f : MailboxFile) :
    Disposition :=
  if strEndsWith f.name ".json" then
    match f.body with
    | .malformed => .quarantined
    | .parsed d => if env.taskThrows d sourceGroup then .quarantined else .deleted
  else .leftInPlace

/-- Disposition of one file of a tenant's `messages` directory:
`sendTelegramMessage` catches its own errors, so only `JSON.parse`
failures reach the catch block. -/
def messageFileDisposition (f : MailboxFile) : Disposition :=
  if strEndsWith f.name ".json" then
    match f.body with
    | .malformed => .quarantined
    | .parsed _ => .deleted
  else .leftInPlace

/-- The Telegram send attempted for one message-directory file: requires a
parsed `{type: message, chatJid, text}` body, a `tg:`-prefixed
destination, the elevated source directory, and a numeric chat id
(`parseInt(chatJid.replace(tg:, ), 10)`); the sent text is
`ASSISTANT_NAME: text`. -/
def messageFileSend (assistant mainFolder sourceGroup : String)
    (f : MailboxFile) : Option (Int × String) :=
  if strEndsWith f.name ".json" then
    match f.body with
    | .malformed => none
    | .parsed d =>
      if d.type == some "message" && truthyS d.chatJid && truthyS d.text then
        let jid := d.chatJid.getD ""
        if strStartsWith jid "tg:" then
          if sourceGroup == mainFolder then
            match jsParseInt10 (jsReplaceFirst "tg:" "" jid) with
            | some chatId => some (chatId, assistant ++ ": " ++ d.text.getD "")
            | none => none
          else none
        else none
      else none
  else none

/-- Drain one tenant's `messages` directory: collect the attempted sends
and the disposition of each `.json` file. -/
def drainMessageFiles (assistant mainFolder sourceGroup : String) :
    List MailboxFile → List (Int × String) × List (String × Disposition)
  | [] => ([], [])
  | f :: rest =>
    let r := drainMessageFiles assistant mainFolder sourceGroup rest
    if strEndsWith f.name ".json" then
      (match messageFileSend assistant mainFolder sourceGroup f with
        | some s => s :: r.1
        | none => r.1,
       (f.name, messageFileDisposition f) :: r.2)
    else r

/-- Drain one tenant's `tasks` directory with the elevation flag the
watcher computed for the directory; returns the final state, the
disposition of each `.json` file, and the trace of
(file, elevation-flag-used) pairs. -/
def drainTaskFilesGo (env : Env) (sourceGroup : String) (isMain : Bool) :
    List MailboxFile → AppState →
    AppState × List (String × Disposition) × List (String × Bool)
  | [], st => (st, [], [])
  | f :: rest, st =>
    if strEndsWith f.name ".json" then
      let st1 :=
        match f.body with
        | .malformed => st
        | .parsed d =>
          if env.taskThrows d sourceGroup then st
          else processTaskIpc env d sourceGroup isMain st
      let r := drainTaskFilesGo env sourceGroup isMain rest st1
      (r.1, (f.name, taskFileDisposition env sourceGroup f) :: r.2.1,
       (f.name, isMain) :: r.2.2)
    else drainTaskFilesGo env sourceGroup isMain rest st

/-- index.ts line 65: `const isMain = sourceGroup === MAIN_GROUP_FOLDER` —
the elevation flag is fixed per directory, before any file is read. -/
def drainTaskFiles (env : Env) (mainFolder sourceGroup : String)
    (files : List MailboxFile) (st : AppState) :
    AppState × List (String × Disposition) × List (String × Bool) :=
  drainTaskFilesGo env sourceGroup (sourceGroup == mainFolder) files st

/-- Result of one poll tick of the IPC watcher. -/
structure TickResult where
  state : AppState
  sent : List (Int × String)
  dispositions : List (String × String × Disposition)
  trace : List (String × Bool)
  errors : List String
deriving Repr, DecidableEq

/-- Process the scanned tenant directories in order, accumulating state,
sends, dispositions (tagged with the source folder), elevation trace, and
the names the quarantined files get in the `errors` directory
(`sourceGroup-file`). -/
def tickGo (env : Env) (assistant mainFolder : String) :
    List TenantDir → TickResult → TickResult
  | [], acc => acc
  | d :: rest, acc =>
    let rm := drainMessageFiles assistant mainFolder d.folder d.messageFiles
    let rt := drainTaskFiles env mainFolder d.folder d.taskFiles acc.state
    let dirDisps := rm.2 ++ rt.2.1
    tickGo env assistant mainFolder rest
      { state := rt.1
        sent := acc.sent ++ rm.1
        dispositions := acc.dispositions ++ dirDisps.map (fun p => (d.folder, p.1, p.2))
        trace := acc.trace ++ rt.2.2
        errors := acc.errors ++ dirDisps.filterMap (fun p =>
          if p.2 == Disposition.quarantined then some (d.folder ++ "-" ++ p.1) else none) }

/-- One poll tick of `processIpcFiles`: scan all group directories of the
IPC base directory, skipping the `errors` quarantine directory, and drain
each one. -/
def processIpcTick (env : Env) (assistant mainFolder : String)
    (dirs : List TenantDir) (st : AppState) : TickResult :=
  tickGo env assistant mainFolder (dirs.filter (fun d => d.folder != "errors"))
    { state := st, sent := [], dispositions := [], trace := [], errors := [] }

/-- The task files a tick leaves in place in a `tasks` directory (only
files whose name does not end in `.json` are never consumed). -/
def leftoverTaskFiles (env : Env) (sourceGroup : String)
    (files : List MailboxFile) : List MailboxFile :=
  files.filter (fun f => taskFileDisposition env sourceGroup f == Disposition.leftInPlace)

/-! ## Telegram message chunking (telegram.ts) -/

/-- The maximum Telegram message length used by the code. -/
def telegramMaxLen : Nat := 4000

/-- The chunk list produced by
`for (let i = 0; i < text.length; i += maxLen) text.slice(i, i + maxLen)`. -/
def jsChunks (s : List Char) : List (List Char) :=
  if s.isEmpty then []
  else s.take telegramMaxLen :: jsChunks (s.drop telegramMaxLen)
termination_by s.length
decreasing_by
  simp only [List.length_drop, telegramMaxLen]
  cases s with
  | nil => simp_all
  | cons c cs =>
    simp only [List.length_cons]
    omega

/-- telegram.ts `sendTelegramMessage`: the sequence of texts handed to
`bot.telegram.sendMessage` — the whole text when it fits in 4000
characters, otherwise the 4000-character chunks in order. -/
def sendTelegramMessageTexts (text : List Char) : List (List Char) :=
  if text.length ≤ telegramMaxLen then [text] else jsChunks text

/-- telegram.ts `sendTelegramResponse`: the sequence of texts handed to
`ctx.reply` — same split as `sendTelegramMessage`. -/
def sendTelegramResponseTexts (text : List Char) : List (List Char) :=
  if text.length ≤ telegramMaxLen then [text] else jsChunks text

/-! ## Access-control operation sequences (for the pending/paired
invariant) -/

/-- One access-control operation, as named by the spec invariant. -/
inductive ACOp
  | request (userId : Int) (username firstName firstMessage : Option String)
  | approve (userId : Int) (approvedBy : Option String)
  | deny (userId : Int)
deriving Repr, DecidableEq

/-- Apply one raw operation (the exported functions called directly). -/
def applyACOp (env : Env) (op : ACOp) (st : ACState) : ACState :=
  match op with
  | .request u un fn fm => requestApproval env u un fn fm st
  | .approve u b => approveUser env u b st
  | .deny u => denyUser u st

/-- Run a sequence of raw operations. -/
def runACOps (env : Env) (ops : List ACOp) (st : ACState) : ACState :=
  ops.foldl (fun s op => applyACOp env op s) st

/-- Apply one operation the way the program reaches it: `requestApproval`
is only invoked from `handleMessage` under the `!isUserPaired(userId)`
guard (telegram.ts lines 694 and 702). -/
def applyGuardedACOp (env : Env) (op : ACOp) (st : ACState) : ACState :=
  match op with
  | .request u un fn fm =>
    if isUserPaired u st then st else requestApproval env u un fn fm st
  | .approve u b => approveUser env u b st
  | .deny u => denyUser u st

/-- Run a sequence of guarded operations. -/
def runGuardedACOps (env : Env) (ops : List ACOp) (st : ACState) : ACState :=
  ops.foldl (fun s op => applyGuardedACOp env op s) st

/-- No userId is simultaneously pending and paired. -/
def acDisjoint (st : ACState) : Bool :=
  st.pending.all (fun p => !(hasKey p.1 st.paired))

/-! ## Spec-side predicates used in theorem statements -/

/-- A control request drained from `sourceGroup` that targets another
tenant, in the sense of C1: a `schedule_task` naming a different target
group, a tenant registration, an access-control mutation, or a mutation
of a task owned by a different tenant. -/
def crossTenantControl (data : IpcData) (sourceGroup : String) (st : AppState) : Prop :=
  (data.type = some "schedule_task" ∧ ∃ tg, data.groupFolder = some tg ∧ tg ≠ sourceGroup)
  ∨ data.type = some "register_group"
  ∨ data.type = some "telegram_approve"
  ∨ data.type = some "telegram_deny"
  ∨ ((data.type = some "pause_task" ∨ data.type = some "resume_task" ∨
        data.type = some "cancel_task")
      ∧ ∃ tid task, data.taskId = some tid ∧ getTaskById tid st.tasks = some task
        ∧ task.group_folder ≠ sourceGroup)

/-- Validity of a schedule value, matching the code's checks: a cron
expression the parser accepts, a positive `parseInt` result, or a
timestamp `Date` accepts (future or past). -/
def scheduleValueValid (env : Env) (k v : String) : Bool :=
  if k == "cron" then (env.cronNext v).isSome
  else if k == "interval" then
    match jsParseInt10 v with
    | some ms => decide (0 < ms)
    | none => false
  else if k == "once" then (env.dateParseMs v).isSome
  else true

/-! ## Concrete fixtures for witnesses and counterexamples -/

/-- A concrete environment: one accepted cron expression `c1`, one
accepted timestamp `2030`, a fixed clock, and a handler that never
throws. -/
def env0 : Env :=
  { cronNext := fun s => if s == "c1" then some "N1" else none
    dateParseMs := fun s => if s == "2030" then some 100 else none
    isoOfMs := fun _ => "T2"
    nowMs := 50
    nowIso := "T0"
    newTaskId := "task-1"
    taskThrows := fun _ _ => false }

/-- The empty durable state. -/
def emptyState : AppState :=
  { tasks := [], registeredGroups := [], ac := { paired := [], pending := [] } }

/-- The empty access-control store. -/
def acEmpty : ACState := { paired := [], pending := [] }

/-! ## Association-list lemmas -/

theorem hasKey_map_overwrite {κ α : Type} [BEq κ] [LawfulBEq κ] (k k2 : κ) (v : α) :
    ∀ l : List (κ × α),
      hasKey k2 (l.map (fun p => if p.1 == k then (k, v) else p)) = hasKey k2 l
  | [] => rfl
  | p :: rest => by
    have ih := hasKey_map_overwrite k k2 v rest
    simp only [hasKey, List.map_cons, List.any_cons] at ih ⊢
    rw [ih]
    by_cases hp : (p.1 == k) = true
    · rw [if_pos hp, eq_of_beq hp]
    · rw [if_neg hp]

theorem hasKey_setAssoc {κ α : Type} [BEq κ] [LawfulBEq κ]
    (k k2 : κ) (v : α) (l : List (κ × α)) :
    hasKey k2 (setAssoc k v l) = (k2 == k || hasKey k2 l) := by
  by_cases hk : hasKey k l = true
  · rw [setAssoc, if_pos hk, hasKey_map_overwrite]
    by_cases hbe : k2 = k
    · subst hbe
      simp [hk]
    · simp [hbe]
  · rw [setAssoc, if_neg hk]
    simp only [hasKey, List.any_append, List.any_cons, List.any_nil, Bool.or_false]
    by_cases hbe : k2 = k
    · subst hbe
      simp
    · have h1 : (k == k2) = false := by
        simp [Ne.symm hbe]
      have h2 : (k2 == k) = false := by
        simp [hbe]
      simp [hasKey, h1, h2]

theorem hasKey_delAssoc {κ α : Type} [BEq κ] [LawfulBEq κ]
    (k k2 : κ) : ∀ l : List (κ × α),
    hasKey k2 (delAssoc k l) = (!(k2 == k) && hasKey k2 l)
  | [] => by simp [hasKey, delAssoc]
  | p :: rest => by
    have ih := hasKey_delAssoc k k2 rest
    simp only [hasKey, delAssoc, List.filter_cons, List.any_cons] at ih ⊢
    by_cases hp : (p.1 != k) = true
    · rw [if_pos hp]
      simp only [List.any_cons]
      rw [ih]
      simp only [bne_iff_ne, ne_eq] at hp
      by_cases hb : k2 = k
      · subst hb
        have : (p.1 == k2) = false := by simp [hp]
        simp [this]
      · have : (k2 == k) = false := by simp [hb]
        simp [this]
    · rw [if_neg hp]
      rw [ih]
      simp only [bne_iff_ne, ne_eq] at hp
      have hpk : p.1 = k := not_not.mp hp
      by_cases hb : k2 = k
      · subst hb
        simp
      · have h1 : (k2 == k) = false := by simp [hb]
        have h2 : (p.1 == k2) = false := by
          rw [hpk]
          simp [Ne.symm hb]
        simp [h1, h2]

/-! ## Claim theorems -/

/-- C1: For every control request drained from a non-elevated tenant's
directory that targets another tenant (schedule_task with a different
target group, register_group, telegram approve/deny, or
pause/resume/cancel of a task owned by a different tenant), the handler
rejects the request and all durable state — task store, tenant registry
and access-control store — is left unchanged. -/
theorem C1_cross_tenant_requests_rejected (env : Env) (mainFolder sourceGroup : String)
    (data : IpcData) (st : AppState)
    (hsrc : sourceGroup ≠ mainFolder)
    (hx : crossTenantControl data sourceGroup st) :
    processTaskIpc env data sourceGroup (sourceGroup == mainFolder) st = st := by
  have hm : (sourceGroup == mainFolder) = false := by simp [hsrc]
  rw [hm]
  rcases hx with ⟨ht, tg, htg, hne⟩ | ht | ht | ht | ⟨ht3, tid, task, htid, hget, hown⟩
  · simp [processTaskIpc, ht, htg, hne]
  · simp [processTaskIpc, ht]
  · simp [processTaskIpc, ht]
  · simp [processTaskIpc, ht]
  · rcases ht3 with ht | ht | ht <;>
    · by_cases htid0 : tid = ""
      · simp [processTaskIpc, ht, htid, htid0, truthyS]
      · simp [processTaskIpc, ht, htid, htid0, hget, hown, truthyS]

/-- Witness for C1: a `schedule_task` from tenant `alpha` targeting
tenant `beta` leaves the state untouched. -/
theorem C1_witness :
    ("alpha" : String) ≠ "main" ∧
    processTaskIpc env0
      { type := some "schedule_task", prompt := some "p",
        schedule_type := some "cron", schedule_value := some "c1",
        chatJid := some "tg:1", groupFolder := some "beta" }
      "alpha" ("alpha" == "main") emptyState = emptyState :=
  ⟨by decide,
   C1_cross_tenant_requests_rejected env0 "main" "alpha"
     { type := some "schedule_task", prompt := some "p",
       schedule_type := some "cron", schedule_value := some "c1",
       chatJid := some "tg:1", groupFolder := some "beta" }
     emptyState (by decide) (Or.inl ⟨rfl, "beta", rfl, by decide⟩)⟩

/-- The fixture refuting C4: a schedule_task request with a valid prompt,
schedule kind and schedule value, but no target-tenant field. -/
def noTargetRequest : IpcData :=
  { type := some "schedule_task", prompt := some "p",
    schedule_type := some "once", schedule_value := some "2030",
    chatJid := some "tg:1" }

/-- Counterexample to C4 as stated: the request carries a valid prompt,
schedule kind and schedule value, and omits the target-tenant field, yet
no task is created — `processTaskIpc` requires a truthy `groupFolder`
and skips the whole schedule_task branch, so the target does not default
to the source tenant. -/
theorem C4_counterexample :
    noTargetRequest.prompt = some "p"
    ∧ noTargetRequest.schedule_type = some "once"
    ∧ noTargetRequest.schedule_value = some "2030"
    ∧ scheduleValueValid env0 "once" "2030" = true
    ∧ noTargetRequest.groupFolder = none
    ∧ (processTaskIpc env0 noTargetRequest "main" true emptyState).tasks = [] := by
  decide

/-- C4 (amended): a schedule_task control request that omits the
target-tenant field (`groupFolder`) is ignored — no task is created and
the state is unchanged; the target tenant does not default to the source
tenant. -/
theorem C4_omitted_target_ignored (env : Env) (data : IpcData)
    (sourceGroup : String) (isMain : Bool) (st : AppState)
    (htype : data.type = some "schedule_task")
    (hgf : data.groupFolder = none) :
    processTaskIpc env data sourceGroup isMain st = st := by
  simp [processTaskIpc, htype, hgf, truthyS]

/-- Witness for the amended C4. -/
theorem C4_witness :
    noTargetRequest.type = some "schedule_task"
    ∧ noTargetRequest.groupFolder = none
    ∧ processTaskIpc env0 noTargetRequest "main" true emptyState = emptyState :=
  ⟨rfl, rfl, C4_omitted_target_ignored env0 noTargetRequest "main" true emptyState rfl rfl⟩

/-- C5: for a schedule_task request whose other preconditions hold
(fields present, authorization passes, a destination jid resolves), an
invalid schedule value — cron expression the parser rejects, interval
that does not parse to a positive integer, or timestamp `Date` rejects —
creates no task and leaves the state unchanged, while a valid schedule
value (including a `once` timestamp in the past) inserts exactly one new
task with status `active` and a non-null initial next-fire time. -/
theorem C5_schedule_validation (env : Env) (data : IpcData) (sourceGroup : String)
    (isMain : Bool) (st : AppState) (k v tg : String)
    (htype : data.type = some "schedule_task")
    (hp : truthyS data.prompt = true)
    (hk : data.schedule_type = some k)
    (hkk : k = "cron" ∨ k = "interval" ∨ k = "once")
    (hv : data.schedule_value = some v) (hv0 : v ≠ "")
    (htg : data.groupFolder = some tg) (htg0 : tg ≠ "")
    (hauth : isMain = true ∨ tg = sourceGroup)
    (hjid : truthyS (if truthyS data.chatJid then data.chatJid
        else lookupJid tg st.registeredGroups) = true) :
    (scheduleValueValid env k v = false → processTaskIpc env data sourceGroup isMain st = st)
    ∧ (scheduleValueValid env k v = true →
        ∃ row : Task, processTaskIpc env data sourceGroup isMain st =
            { st with tasks := st.tasks ++ [row] } ∧
          row.status = "active" ∧ row.next_run.isSome = true) := by
  have hauth2 : (!isMain && tg != sourceGroup) = false := by
    rcases hauth with h | h <;> simp [h]
  have hsv : truthyS (some v) = true := by simp [truthyS, hv0]
  have hstg : truthyS (some tg) = true := by simp [truthyS, htg0]
  rcases hkk with hc | hc | hc
  · have hval : scheduleValueValid env k v = (env.cronNext v).isSome := by
      simp [scheduleValueValid, hc]
    subst hc
    constructor
    · intro hvalid
      rw [hval] at hvalid
      have hcn : env.cronNext v = none := by
        cases h : env.cronNext v
        · rfl
        · rw [h] at hvalid; simp at hvalid
      simp [processTaskIpc, htype, hp, hk, hv, htg, hsv, hstg, hauth2, hjid, hcn]
    · intro hvalid
      rw [hval] at hvalid
      rcases h : env.cronNext v with _ | iso
      · rw [h] at hvalid; simp at hvalid
      · simp [processTaskIpc, htype, hp, hk, hv, htg, hsv, hstg, hauth2, hjid, h, createTask]
        exact ⟨_, rfl, rfl, rfl⟩
  · have hval : scheduleValueValid env k v =
        (match jsParseInt10 v with
          | some ms => decide (0 < ms)
          | none => false) := by
      simp [scheduleValueValid, hc]
    subst hc
    constructor
    · intro hvalid
      rw [hval] at hvalid
      rcases h : jsParseInt10 v with _ | ms
      · simp [processTaskIpc, htype, hp, hk, hv, htg, hsv, hstg, hauth2, hjid, h]
      · rw [h] at hvalid
        simp only [decide_eq_false_iff_not, not_lt] at hvalid
        simp [processTaskIpc, htype, hp, hk, hv, htg, hsv, hstg, hauth2, hjid, h, hvalid]
    · intro hvalid
      rw [hval] at hvalid
      rcases h : jsParseInt10 v with _ | ms
      · rw [h] at hvalid; simp at hvalid
      · rw [h] at hvalid
        simp only [decide_eq_true_eq] at hvalid
        have hms : ¬ ms ≤ 0 := by omega
        simp [processTaskIpc, htype, hp, hk, hv, htg, hsv, hstg, hauth2, hjid, h, hms,
          createTask]
        exact ⟨_, rfl, rfl, rfl⟩
  · have hval : scheduleValueValid env k v = (env.dateParseMs v).isSome := by
      simp [scheduleValueValid, hc]
    subst hc
    constructor
    · intro hvalid
      rw [hval] at hvalid
      have hdn : env.dateParseMs v = none := by
        cases h : env.dateParseMs v
        · rfl
        · rw [h] at hvalid; simp at hvalid
      simp [processTaskIpc, htype, hp, hk, hv, htg, hsv, hstg, hauth2, hjid, hdn]
    · intro hvalid
      rw [hval] at hvalid
      rcases h : env.dateParseMs v with _ | t
      · rw [h] at hvalid; simp at hvalid
      · simp [processTaskIpc, htype, hp, hk, hv, htg, hsv, hstg, hauth2, hjid, h, createTask]
        exact ⟨_, rfl, rfl, rfl⟩

/-- Witness for C5: a `once` request whose value the fixture `Date`
accepts creates exactly one active task with a non-null next-fire time —
the code checks only that the value parses, not where it lies relative
to the clock. -/
theorem C5_witness :
    scheduleValueValid env0 "once" "2030" = true ∧
    ∃ row : Task,
      processTaskIpc env0
        { type := some "schedule_task", prompt := some "p",
          schedule_type := some "once", schedule_value := some "2030",
          chatJid := some "tg:1", groupFolder := some "alpha" }
        "alpha" false emptyState =
          { emptyState with tasks := emptyState.tasks ++ [row] } ∧
      row.status = "active" ∧ row.next_run.isSome = true :=
  ⟨by decide,
   (C5_schedule_validation env0
     { type := some "schedule_task", prompt := some "p",
       schedule_type := some "once", schedule_value := some "2030",
       chatJid := some "tg:1", groupFolder := some "alpha" }
     "alpha" false emptyState "once" "2030" "alpha" rfl (by decide) rfl
     (Or.inr (Or.inr rfl)) rfl (by decide) rfl (by decide)
     (Or.inr rfl) (by decide)).2 (by decide)⟩

/-- Shape of the schedule_task branch: the state is returned unchanged,
or exactly one new row is appended whose context_mode, status and
created_at come from the handler. -/
theorem processTaskIpc_schedule_shape (env : Env) (data : IpcData)
    (sourceGroup : String) (isMain : Bool) (st : AppState)
    (htype : data.type = some "schedule_task") :
    processTaskIpc env data sourceGroup isMain st = st
    ∨ ∃ row : Task,
        processTaskIpc env data sourceGroup isMain st = { st with tasks := st.tasks ++ [row] }
        ∧ row.context_mode = (if data.context_mode == some "group" ||
              data.context_mode == some "isolated"
            then data.context_mode.getD "isolated" else "isolated")
        ∧ row.status = "active" ∧ row.created_at = env.nowIso := by
  simp only [processTaskIpc, htype, createTask]
  repeat' split
  all_goals
    first
      | exact Or.inl rfl
      | exact Or.inr ⟨_, rfl, rfl, rfl, rfl⟩

/-- C9: every task row created by the schedule_task handler has a
context_mode that is `group` or `isolated` — an absent or unrecognized
context_mode in the request is replaced by `isolated` — and is created
with status `active` and the creation timestamp. -/
theorem C9_task_row_wellformed (env : Env) (data : IpcData) (sourceGroup : String)
    (isMain : Bool) (st : AppState)
    (htype : data.type = some "schedule_task") :
    ∀ t ∈ (processTaskIpc env data sourceGroup isMain st).tasks,
      t ∈ st.tasks ∨
        (t.context_mode = (if data.context_mode == some "group" ||
              data.context_mode == some "isolated"
            then data.context_mode.getD "isolated" else "isolated")
          ∧ (t.context_mode = "group" ∨ t.context_mode = "isolated")
          ∧ t.status = "active" ∧ t.created_at = env.nowIso) := by
  intro t ht
  rcases processTaskIpc_schedule_shape env data sourceGroup isMain st htype with
    h | ⟨row, heq, hctx, hstat, hcreat⟩
  · rw [h] at ht
    exact Or.inl ht
  · rw [heq] at ht
    simp only [List.mem_append, List.mem_singleton] at ht
    rcases ht with h | h
    · exact Or.inl h
    · subst h
      right
      refine ⟨hctx, ?_, hstat, hcreat⟩
      rw [hctx]
      by_cases hcm : (data.context_mode == some "group" ||
          data.context_mode == some "isolated") = true
      · rw [if_pos hcm]
        rcases Bool.or_eq_true_iff.mp hcm with h | h
        · left
          rw [eq_of_beq h]
          rfl
        · right
          rw [eq_of_beq h]
          rfl
      · rw [if_neg hcm]
        right
        rfl

/-- A valid schedule_task request fixture (own group, no context_mode). -/
def scheduleRequest9 : IpcData :=
  { type := some "schedule_task", prompt := some "p",
    schedule_type := some "once", schedule_value := some "2030",
    chatJid := some "tg:1", groupFolder := some "alpha" }

/-- The row `scheduleRequest9` creates under `env0`. -/
def createdRow9 : Task :=
  { id := "task-1", group_folder := "alpha", chat_jid := "tg:1",
    prompt := "p", schedule_type := "once", schedule_value := "2030",
    context_mode := "isolated", next_run := some "T2",
    status := "active", created_at := "T0" }

/-- Witness for C9: the single task created by a valid request with no
context_mode field has context_mode `isolated`, status `active` and the
fixture timestamp. -/
theorem C9_witness :
    createdRow9 ∈ (processTaskIpc env0 scheduleRequest9 "alpha" false emptyState).tasks
    ∧ (createdRow9 ∈ emptyState.tasks ∨
        (createdRow9.context_mode = (if scheduleRequest9.context_mode == some "group" ||
              scheduleRequest9.context_mode == some "isolated"
            then scheduleRequest9.context_mode.getD "isolated" else "isolated")
          ∧ (createdRow9.context_mode = "group" ∨ createdRow9.context_mode = "isolated")
          ∧ createdRow9.status = "active" ∧ createdRow9.created_at = env0.nowIso)) :=
  ⟨by decide,
   C9_task_row_wellformed env0 scheduleRequest9 "alpha" false emptyState rfl
     createdRow9 (by decide)⟩

/-- Concatenating the chunks recovers the original text. -/
theorem jsChunks_flatten (s : List Char) : (jsChunks s).flatten = s := by
  generalize hn : s.length = n
  induction n using Nat.strong_induction_on generalizing s with
  | _ n ih =>
  rw [jsChunks]
  by_cases h : s = []
  · subst h
    simp
  · have hbe : s.isEmpty = false := by
      cases s
      · simp at h
      · rfl
    rw [if_neg (by simp [hbe])]
    have hpos : 0 < s.length := List.length_pos.mpr h
    have hlt : (s.drop telegramMaxLen).length < n := by
      subst hn
      simp only [List.length_drop, telegramMaxLen]
      omega
    rw [List.flatten_cons, ih _ hlt _ rfl]
    exact List.take_append_drop _ _

/-- Every chunk has at most `telegramMaxLen` characters. -/
theorem jsChunks_length_le (s : List Char) :
    ∀ c ∈ jsChunks s, c.length ≤ telegramMaxLen := by
  generalize hn : s.length = n
  induction n using Nat.strong_induction_on generalizing s with
  | _ n ih =>
  intro c hc
  rw [jsChunks] at hc
  by_cases h : s = []
  · subst h
    simp at hc
  · have hbe : s.isEmpty = false := by
      cases s
      · simp at h
      · rfl
    rw [if_neg (by simp [hbe])] at hc
    have hpos : 0 < s.length := List.length_pos.mpr h
    have hlt : (s.drop telegramMaxLen).length < n := by
      subst hn
      simp only [List.length_drop, telegramMaxLen]
      omega
    rcases List.mem_cons.mp hc with hco | hco
    · subst hco
      exact List.length_take_le _ _
    · exact ih _ hlt _ rfl c hco

/-- C10: a text of at most 4000 characters is sent as a single message;
a longer text is sent as consecutive chunks of at most 4000 characters
whose in-order concatenation is the original text, so the split loses,
duplicates and reorders nothing — for both `sendTelegramMessage` and
`sendTelegramResponse`. -/
theorem C10_telegram_chunking (text : List Char) :
    (text.length ≤ telegramMaxLen →
      sendTelegramMessageTexts text = [text] ∧ sendTelegramResponseTexts text = [text])
    ∧ (∀ c ∈ sendTelegramMessageTexts text, c.length ≤ telegramMaxLen)
    ∧ (sendTelegramMessageTexts text).flatten = text
    ∧ (∀ c ∈ sendTelegramResponseTexts text, c.length ≤ telegramMaxLen)
    ∧ (sendTelegramResponseTexts text).flatten = text := by
  have hsame : sendTelegramResponseTexts text = sendTelegramMessageTexts text := rfl
  by_cases h : text.length ≤ telegramMaxLen
  · have h1 : sendTelegramMessageTexts text = [text] := by
      rw [sendTelegramMessageTexts, if_pos h]
    refine ⟨fun _ => ⟨h1, by rw [hsame, h1]⟩, ?_, ?_, ?_, ?_⟩
    · rw [h1]
      intro c hc
      rw [List.mem_singleton.mp hc]
      exact h
    · rw [h1]
      simp
    · rw [hsame, h1]
      intro c hc
      rw [List.mem_singleton.mp hc]
      exact h
    · rw [hsame, h1]
      simp
  · have h1 : sendTelegramMessageTexts text = jsChunks text := by
      rw [sendTelegramMessageTexts, if_neg h]
    refine ⟨fun hle => absurd hle h, ?_, ?_, ?_, ?_⟩
    · rw [h1]
      exact jsChunks_length_le text
    · rw [h1]
      exact jsChunks_flatten text
    · rw [hsame, h1]
      exact jsChunks_length_le text
    · rw [hsame, h1]
      exact jsChunks_flatten text

/-- Witness for C10: a two-character text fits and is sent whole. -/
theorem C10_witness :
    (['h', 'i'] : List Char).length ≤ telegramMaxLen
    ∧ sendTelegramMessageTexts ['h', 'i'] = [['h', 'i']]
    ∧ (sendTelegramMessageTexts ['h', 'i']).flatten = ['h', 'i'] :=
  ⟨by decide,
   ((C10_telegram_chunking ['h', 'i']).1 (by decide)).1,
   (C10_telegram_chunking ['h', 'i']).2.2.1⟩

/-- Every elevation flag recorded while draining a tasks directory is the
flag passed in for the whole directory. -/
theorem drainTaskFilesGo_trace (env : Env) (g : String) (b : Bool) :
    ∀ (files : List MailboxFile) (st : AppState),
      ∀ p ∈ (drainTaskFilesGo env g b files st).2.2, p.2 = b
  | [], st => by
    intro p hp
    simp [drainTaskFilesGo] at hp
  | f :: rest, st => by
    intro p hp
    by_cases hj : strEndsWith f.name ".json"
    · simp only [drainTaskFilesGo, hj, if_true] at hp
      rcases List.mem_cons.mp hp with h | h
      · rw [h]
      · exact drainTaskFilesGo_trace env g b rest _ p h
    · simp only [drainTaskFilesGo, hj, Bool.false_eq_true, if_false] at hp
      exact drainTaskFilesGo_trace env g b rest st p hp

/-- C2: the elevation decision for a drained entry is a function only of
the directory the file was found in: every entry of a tenant directory is
processed with flag `sourceGroup == MAIN_GROUP_FOLDER`, so any two
entries of the same directory get the same flag, whatever their file
contents. -/
theorem C2_elevation_directory_only (env : Env) (mainFolder sourceGroup : String)
    (files : List MailboxFile) (st : AppState) :
    (∀ p ∈ (drainTaskFiles env mainFolder sourceGroup files st).2.2,
        p.2 = (sourceGroup == mainFolder))
    ∧ (∀ p ∈ (drainTaskFiles env mainFolder sourceGroup files st).2.2,
        ∀ q ∈ (drainTaskFiles env mainFolder sourceGroup files st).2.2,
          p.2 = q.2) := by
  have h1 : ∀ p ∈ (drainTaskFiles env mainFolder sourceGroup files st).2.2,
      p.2 = (sourceGroup == mainFolder) := by
    intro p hp
    rw [drainTaskFiles] at hp
    exact drainTaskFilesGo_trace env sourceGroup (sourceGroup == mainFolder) files st p hp
  refine ⟨h1, ?_⟩
  intro p hp q hq
  rw [h1 p hp, h1 q hq]

/-- Witness for C2: a malformed entry in tenant `alpha` is traced with
the non-elevated flag `alpha == main`. -/
theorem C2_witness :
    (("a.json", false) : String × Bool) ∈
      (drainTaskFiles env0 "main" "alpha"
        [{ name := "a.json", body := FileBody.malformed }] emptyState).2.2
    ∧ (("a.json", false) : String × Bool).2 = ("alpha" == "main") :=
  ⟨by decide,
   (C2_elevation_directory_only env0 "main" "alpha"
     [{ name := "a.json", body := FileBody.malformed }] emptyState).1
     ("a.json", false) (by decide)⟩

/-- Dispositions accumulated by the tick only carry folders from the
scanned directory list. -/
theorem tickGo_disp_not_errors (env : Env) (a m : String) :
    ∀ (ds : List TenantDir) (acc : TickResult),
      (∀ d ∈ ds, d.folder ≠ "errors") →
      (∀ e ∈ acc.dispositions, e.1 ≠ "errors") →
      ∀ e ∈ (tickGo env a m ds acc).dispositions, e.1 ≠ "errors"
  | [], acc => by
    intro h1 h2 e he
    rw [tickGo] at he
    exact h2 e he
  | d :: rest, acc => by
    intro h1 h2 e he
    rw [tickGo] at he
    refine tickGo_disp_not_errors env a m rest _
      (fun d2 hd2 => h1 d2 (List.mem_cons_of_mem _ hd2)) ?_ e he
    intro e2 he2
    simp only [List.mem_append] at he2
    rcases he2 with h | h
    · exact h2 e2 h
    · rcases List.mem_map.mp h with ⟨p, hp, hpe⟩
      rw [← hpe]
      exact h1 d (List.mem_cons_self _ _)

/-- C3: a mailbox entry whose body fails to parse or whose handler throws
is quarantined, not deleted; every processed (`.json`) entry is either
deleted after processing or quarantined — nothing else removes it — and
the scan that produces dispositions skips the `errors` quarantine
directory, so quarantined entries are never reprocessed. -/
theorem C3_quarantine_on_failure (env : Env) (assistant mainFolder sourceGroup : String)
    (f : MailboxFile) (dirs : List TenantDir) (st : AppState) :
    (strEndsWith f.name ".json" = true →
      ((f.body = FileBody.malformed ∨
          ∃ d, f.body = FileBody.parsed d ∧ env.taskThrows d sourceGroup = true) →
        taskFileDisposition env sourceGroup f = Disposition.quarantined)
      ∧ (f.body = FileBody.malformed →
          messageFileDisposition f = Disposition.quarantined)
      ∧ (taskFileDisposition env sourceGroup f = Disposition.deleted ∨
          taskFileDisposition env sourceGroup f = Disposition.quarantined)
      ∧ (messageFileDisposition f = Disposition.deleted ∨
          messageFileDisposition f = Disposition.quarantined))
    ∧ (strEndsWith f.name ".json" = false →
        taskFileDisposition env sourceGroup f = Disposition.leftInPlace
        ∧ messageFileDisposition f = Disposition.leftInPlace)
    ∧ (∀ e ∈ (processIpcTick env assistant mainFolder dirs st).dispositions,
        e.1 ≠ "errors") := by
  refine ⟨?_, ?_, ?_⟩
  · intro hj
    refine ⟨?_, ?_, ?_, ?_⟩
    · rintro (hb | ⟨d, hb, hthrow⟩)
      · simp [taskFileDisposition, hj, hb]
      · simp [taskFileDisposition, hj, hb, hthrow]
    · intro hb
      simp [messageFileDisposition, hj, hb]
    · rw [taskFileDisposition, if_pos hj]
      cases hb : f.body with
      | malformed => right; rfl
      | parsed d =>
        by_cases hthrow : env.taskThrows d sourceGroup = true
        · right
          simp [hthrow]
        · left
          simp only [Bool.not_eq_true] at hthrow
          simp [hthrow]
    · rw [messageFileDisposition, if_pos hj]
      cases f.body with
      | malformed => right; rfl
      | parsed d => left; rfl
  · intro hj
    constructor
    · simp [taskFileDisposition, hj]
    · simp [messageFileDisposition, hj]
  · intro e he
    rw [processIpcTick] at he
    refine tickGo_disp_not_errors env assistant mainFolder _ _ ?_ ?_ e he
    · intro d hd
      have := List.mem_filter.mp hd
      simpa [bne_iff_ne] using this.2
    · intro e2 he2
      simp at he2

/-- Witness for C3: a malformed `.json` entry is quarantined. -/
theorem C3_witness :
    strEndsWith ({ name := "a.json", body := FileBody.malformed } : MailboxFile).name ".json" = true
    ∧ taskFileDisposition env0 "alpha" { name := "a.json", body := FileBody.malformed }
        = Disposition.quarantined :=
  ⟨by decide,
   ((C3_quarantine_on_failure env0 "m87" "main" "alpha"
       { name := "a.json", body := FileBody.malformed } [] emptyState).1
     (by decide)).1 (Or.inl rfl)⟩

/-- C7: a parsed control request whose handler returns without throwing —
whether it applied or rejected the request — has its file deleted, never
quarantined, and the file is not among the leftovers of any directory
scan, so it is never retried. -/
theorem C7_rejected_requests_deleted (env : Env) (sourceGroup : String)
    (f : MailboxFile) (d : IpcData)
    (hjson : strEndsWith f.name ".json" = true)
    (hparsed : f.body = FileBody.parsed d)
    (hnothrow : env.taskThrows d sourceGroup = false) :
    taskFileDisposition env sourceGroup f = Disposition.deleted
    ∧ taskFileDisposition env sourceGroup f ≠ Disposition.quarantined
    ∧ ∀ files : List MailboxFile, f ∉ leftoverTaskFiles env sourceGroup files := by
  have h1 : taskFileDisposition env sourceGroup f = Disposition.deleted := by
    simp [taskFileDisposition, hjson, hparsed, hnothrow]
  refine ⟨h1, ?_, ?_⟩
  · rw [h1]
    intro hx
    cases hx
  · intro files hmem
    rw [leftoverTaskFiles] at hmem
    have := (List.mem_filter.mp hmem).2
    rw [h1] at this
    simp at this

/-- Witness for C7: a parsed, non-throwing request file is deleted and is
not left pending. -/
theorem C7_witness :
    taskFileDisposition env0 "alpha"
        { name := "b.json", body := FileBody.parsed { type := some "nonsense" } }
      = Disposition.deleted
    ∧ ({ name := "b.json", body := FileBody.parsed { type := some "nonsense" } } : MailboxFile)
        ∉ leftoverTaskFiles env0 "alpha"
          [{ name := "b.json", body := FileBody.parsed { type := some "nonsense" } }] :=
  ⟨(C7_rejected_requests_deleted env0 "alpha"
      { name := "b.json", body := FileBody.parsed { type := some "nonsense" } }
      { type := some "nonsense" } (by decide) rfl (by decide)).1,
   (C7_rejected_requests_deleted env0 "alpha"
      { name := "b.json", body := FileBody.parsed { type := some "nonsense" } }
      { type := some "nonsense" } (by decide) rfl (by decide)).2.2
     [{ name := "b.json", body := FileBody.parsed { type := some "nonsense" } }]⟩

/-- C6: an outbound message entry produces a Telegram send only when it
comes from the elevated tenant's directory and its destination is
well-formed (a `tg:`-prefixed jid whose remainder parses as a chat id);
an entry in any non-elevated tenant's directory produces no send, and
its file is still disposed of (deleted or quarantined, never left in
place). -/
theorem C6_outbound_messages_elevated_only (assistant mainFolder sourceGroup : String)
    (f : MailboxFile) :
    (∀ cid text, messageFileSend assistant mainFolder sourceGroup f = some (cid, text) →
      sourceGroup = mainFolder ∧
      ∃ d jid, f.body = FileBody.parsed d ∧ d.chatJid = some jid ∧
        strStartsWith jid "tg:" = true ∧
        jsParseInt10 (jsReplaceFirst "tg:" "" jid) = some cid)
    ∧ (sourceGroup ≠ mainFolder →
        messageFileSend assistant mainFolder sourceGroup f = none
        ∧ (strEndsWith f.name ".json" = true →
            messageFileDisposition f ≠ Disposition.leftInPlace)) := by
  obtain ⟨name, body⟩ := f
  constructor
  · intro cid text h
    cases body with
    | malformed =>
      simp [messageFileSend] at h
    | parsed d =>
      simp only [messageFileSend] at h
      by_cases hj : strEndsWith name ".json" = true
      case neg =>
        rw [if_neg hj] at h
        exact Option.noConfusion h
      case pos =>
      rw [if_pos hj] at h
      by_cases hcond : (d.type == some "message" && truthyS d.chatJid && truthyS d.text) = true
      case neg =>
        rw [if_neg hcond] at h
        exact Option.noConfusion h
      case pos =>
      rw [if_pos hcond] at h
      by_cases hstart : strStartsWith (d.chatJid.getD "") "tg:" = true
      case neg =>
        rw [if_neg hstart] at h
        exact Option.noConfusion h
      case pos =>
      rw [if_pos hstart] at h
      by_cases hmain : (sourceGroup == mainFolder) = true
      case neg =>
        rw [if_neg hmain] at h
        exact Option.noConfusion h
      case pos =>
      rw [if_pos hmain] at h
      have hcj : truthyS d.chatJid = true := by
        rcases Bool.and_eq_true_iff.mp hcond with ⟨h1, _⟩
        exact (Bool.and_eq_true_iff.mp h1).2
      rcases hjid : d.chatJid with _ | jid
      · rw [hjid] at hcj
        cases hcj
      · rw [hjid] at h hstart
        simp only [Option.getD_some] at h hstart
        rcases hp : jsParseInt10 (jsReplaceFirst "tg:" "" jid) with _ | n
        · rw [hp] at h
          exact Option.noConfusion h
        · rw [hp] at h
          have hcid : n = cid := congrArg Prod.fst (Option.some.inj h)
          refine ⟨eq_of_beq hmain, d, jid, rfl, hjid, hstart, ?_⟩
          rw [hp, hcid]
  · intro hne
    have hmain : (sourceGroup == mainFolder) = false := by
      simp [hne]
    constructor
    · cases body with
      | malformed =>
        simp [messageFileSend]
      | parsed d =>
        simp only [messageFileSend]
        by_cases hj : strEndsWith name ".json" = true
        case neg =>
          rw [if_neg hj]
        case pos =>
        rw [if_pos hj]
        by_cases hcond : (d.type == some "message" && truthyS d.chatJid && truthyS d.text) = true
        case neg => rw [if_neg hcond]
        case pos =>
        rw [if_pos hcond]
        by_cases hstart : strStartsWith (d.chatJid.getD "") "tg:" = true
        case neg => rw [if_neg hstart]
        case pos =>
        rw [if_pos hstart, hmain]
        simp
    · intro hj
      cases body with
      | malformed =>
        simp [messageFileDisposition, hj]
      | parsed d =>
        simp [messageFileDisposition, hj]

/-- Witness for C6: a well-formed outbound message entry in non-elevated
tenant `alpha` produces no send and its file is still consumed. -/
theorem C6_witness :
    ("alpha" : String) ≠ "main"
    ∧ messageFileSend "m87" "main" "alpha"
        { name := "m.json",
          body := FileBody.parsed
            { type := some "message", chatJid := some "tg:42", text := some "hi" } } = none
    ∧ messageFileDisposition
        { name := "m.json",
          body := FileBody.parsed
            { type := some "message", chatJid := some "tg:42", text := some "hi" } }
      ≠ Disposition.leftInPlace :=
  ⟨by decide,
   ((C6_outbound_messages_elevated_only "m87" "main" "alpha"
       { name := "m.json",
         body := FileBody.parsed
           { type := some "message", chatJid := some "tg:42", text := some "hi" } }).2
     (by decide)).1,
   ((C6_outbound_messages_elevated_only "m87" "main" "alpha"
       { name := "m.json",
         body := FileBody.parsed
           { type := some "message", chatJid := some "tg:42", text := some "hi" } }).2
     (by decide)).2 (by decide)⟩

/-- Pointwise characterization of `acDisjoint`. -/
theorem acDisjoint_iff (st : ACState) :
    acDisjoint st = true ↔
      ∀ u : Int, hasKey u st.pending = true → hasKey u st.paired = false := by
  rw [acDisjoint, List.all_eq_true]
  constructor
  · intro h u hu
    rw [hasKey, List.any_eq_true] at hu
    rcases hu with ⟨p, hp, hpu⟩
    have hnp := h p hp
    rw [Bool.not_eq_true'] at hnp
    rwa [eq_of_beq hpu] at hnp
  · intro h p hp
    rw [Bool.not_eq_true']
    apply h
    rw [hasKey, List.any_eq_true]
    exact ⟨p, hp, by simp⟩

/-- One guarded operation preserves pending/paired disjointness. -/
theorem applyGuardedACOp_disjoint (env : Env) (op : ACOp) (st : ACState)
    (h : ∀ u : Int, hasKey u st.pending = true → hasKey u st.paired = false) :
    ∀ u : Int, hasKey u (applyGuardedACOp env op st).pending = true →
      hasKey u (applyGuardedACOp env op st).paired = false := by
  cases op with
  | request u0 un fn fm =>
    by_cases hg : isUserPaired u0 st = true
    · simp only [applyGuardedACOp]
      rw [if_pos hg]
      exact h
    · simp only [applyGuardedACOp]
      rw [if_neg hg]
      by_cases hpend : hasKey u0 st.pending = true
      · simp only [requestApproval]
        rw [if_pos hpend]
        exact h
      · simp only [requestApproval]
        rw [if_neg hpend]
        intro v hv
        dsimp only at hv ⊢
        rw [hasKey_setAssoc] at hv
        rcases Bool.or_eq_true_iff.mp hv with hvu | hvp
        · have hvu2 : v = u0 := eq_of_beq hvu
          subst hvu2
          simpa [isUserPaired] using hg
        · exact h v hvp
  | approve u0 b =>
    intro v hv
    simp only [applyGuardedACOp, approveUser] at hv ⊢
    rw [hasKey_setAssoc]
    by_cases hpend : hasKey u0 st.pending = true
    · rw [if_pos hpend, hasKey_delAssoc] at hv
      rcases Bool.and_eq_true_iff.mp hv with ⟨hne, hvp⟩
      have hvu : (v == u0) = false := by simpa using hne
      rw [hvu]
      simp only [Bool.false_or]
      exact h v hvp
    · rw [if_neg hpend] at hv
      have hvu : (v == u0) = false := by
        by_contra hx
        rw [Bool.not_eq_false] at hx
        have hveq : v = u0 := eq_of_beq hx
        subst hveq
        exact hpend hv
      rw [hvu]
      simp only [Bool.false_or]
      exact h v hv
  | deny u0 =>
    intro v hv
    simp only [applyGuardedACOp, denyUser] at hv ⊢
    by_cases hpend : hasKey u0 st.pending = true
    · simp only [hpend, if_true] at hv ⊢
      rw [hasKey_delAssoc] at hv
      exact h v (Bool.and_eq_true_iff.mp hv).2
    · simp only [hpend, if_false] at hv ⊢
      exact h v hv

/-- Running any sequence of guarded operations preserves disjointness. -/
theorem runGuardedACOps_disjoint (env : Env) (ops : List ACOp) :
    ∀ st : ACState, acDisjoint st = true →
      acDisjoint (runGuardedACOps env ops st) = true := by
  induction ops with
  | nil =>
    intro st h
    simpa [runGuardedACOps] using h
  | cons op rest ih =>
    intro st h
    have h1 := applyGuardedACOp_disjoint env op st ((acDisjoint_iff st).mp h)
    have h2 : acDisjoint (applyGuardedACOp env op st) = true := (acDisjoint_iff _).mpr h1
    simpa [runGuardedACOps, List.foldl_cons] using ih _ h2

/-- Counterexample to C8 as stated: over raw operation sequences the
invariant fails — `approveUser` deliberately also approves users that
were never pending ("direct approval"), and `requestApproval` checks only
the pending store, so approve(7) followed by requestApproval(7) leaves
userId 7 simultaneously paired and pending. -/
theorem C8_counterexample :
    hasKey 7 (runACOps env0 [ACOp.approve 7 (some "main"),
        ACOp.request 7 none none (some "hi")] acEmpty).pending = true
    ∧ hasKey 7 (runACOps env0 [ACOp.approve 7 (some "main"),
        ACOp.request 7 none none (some "hi")] acEmpty).paired = true := by
  decide

/-- C8 (amended): approving creates the paired record and deletes any
pending record; denying deletes the pending record and never touches the
paired store; and any sequence of these operations in which
requestApproval is only reached for users that are not currently paired
(the `isUserPaired` guard of `handleMessage`, the operation's only call
site) preserves the invariant that no userId is both pending and paired. -/
theorem C8_pending_paired_invariant (env : Env) (u : Int) (b : Option String)
    (st : ACState) (ops : List ACOp) :
    hasKey u (approveUser env u b st).paired = true
    ∧ hasKey u (approveUser env u b st).pending = false
    ∧ (denyUser u st).paired = st.paired
    ∧ hasKey u (denyUser u st).pending = false
    ∧ (acDisjoint st = true → acDisjoint (runGuardedACOps env ops st) = true) := by
  refine ⟨?_, ?_, ?_, ?_, fun h => runGuardedACOps_disjoint env ops st h⟩
  · simp only [approveUser]
    rw [hasKey_setAssoc]
    simp
  · simp only [approveUser]
    by_cases hpend : hasKey u st.pending = true
    · rw [if_pos hpend, hasKey_delAssoc]
      simp
    · rw [if_neg hpend]
      simpa using hpend
  · rw [denyUser]
    by_cases hpend : hasKey u st.pending = true
    · rw [if_pos hpend]
    · rw [if_neg hpend]
  · rw [denyUser]
    by_cases hpend : hasKey u st.pending = true
    · simp only [hpend, if_true]
      rw [hasKey_delAssoc]
      simp
    · simp only [hpend, if_false]
      simpa using hpend

/-- Witness for the amended C8: from the empty store, approving 7 pairs
it, and the guarded sequence approve(7); request(7) keeps the stores
disjoint. -/
theorem C8_witness :
    acDisjoint acEmpty = true
    ∧ hasKey 7 (approveUser env0 7 (some "main") acEmpty).paired = true
    ∧ acDisjoint (runGuardedACOps env0
        [ACOp.approve 7 (some "main"), ACOp.request 7 none none (some "hi")]
        acEmpty) = true :=
  ⟨by decide,
   (C8_pending_paired_invariant env0 7 (some "main") acEmpty []).1,
   (C8_pending_paired_invariant env0 7 (some "main") acEmpty
      [ACOp.approve 7 (some "main"),
       ACOp.request 7 none none (some "hi")]).2.2.2.2 (by decide)⟩

end M87
